import Mathlib

/-!
Verification of the Denethor browser-game RL repository.

Shallow embedding of the reward/state subsystem and the PPO training core
(`denethor_rl/training/train.py`, `denethor_rl/envs/game_env.py`,
`denethor_rl/envs/base_browser_env.py`, `denethor_rl/games/registry.py`),
plus spec-modelled definitions for the two modules whose implementation files
are not in the source tree (`denethor_rl/utils/progress_detector.py` and
`denethor_rl/rewards/base.py`, known only through their tests and the spec).

Floating-point values are modelled as exact rationals.  The two transcendental
operations that occur in the PPO update (`torch.exp`, the square root inside
`torch.std`) are taken as abstract function parameters `qexp`/`qsqrt`, so every
definition stays computable and every theorem holds for any interpretation.
-/

/-- Arithmetic mean of a list of rationals, as torch `.mean()` computes it
(sum divided by length; the empty mean degenerates to 0 in `ℚ`). -/
def listMean (l : List ℚ) : ℚ := l.sum / l.length

/-- Clamp a value to the interval `[lo, hi]`, as `torch.clamp` / Python-style
`max(lo, min(x, hi))` does. -/
def clampQ (x lo hi : ℚ) : ℚ := min (max x lo) hi

/-! ## Generalized Advantage Estimation
Embedding of `PPOTrainer.compute_gae` (train.py lines 142-170).  The rollout
buffers `rewards`, `dones`, `values` are modelled as functions from the
timestep index (per parallel environment the computation is elementwise, so a
single scalar stream is embedded); `dones` holds the 0/1 floats stored by
`collect_rollout`.  The backward loop carrying `lastgaelam` becomes structural
recursion on the remaining number of iterations `H - t`. -/

/-- The `nextnonterminal` selected inside the loop of `compute_gae`:
`1 - dones[t]` at the final step, `1 - dones[t+1]` earlier. -/
def nextnonterminal (H : ℕ) (dones : ℕ → ℚ) (t : ℕ) : ℚ :=
  if t = H - 1 then 1 - dones t else 1 - dones (t + 1)

/-- The `nextvalues` selected inside the loop of `compute_gae`: the bootstrap
`next_value` at the final step, `values[t+1]` earlier. -/
def nextvalues (H : ℕ) (values : ℕ → ℚ) (nextValue : ℚ) (t : ℕ) : ℚ :=
  if t = H - 1 then nextValue else values (t + 1)

/-- The TD residual `delta` computed at timestep `t` in `compute_gae`. -/
def gaeDelta (gamma : ℚ) (H : ℕ) (rewards dones values : ℕ → ℚ)
    (nextValue : ℚ) (t : ℕ) : ℚ :=
  rewards t + gamma * nextvalues H values nextValue t * nextnonterminal H dones t
    - values t

/-- Value of `lastgaelam` (equivalently `advantages[t]`) after the loop of
`compute_gae` has processed the timesteps `H-1, H-2, ..., t`; the first
argument is the number of loop iterations still ahead of `t` (zero iterations
corresponds to the initialisation `lastgaelam = 0`). -/
def gaeAdvAux (gamma lam : ℚ) (H : ℕ) (rewards dones values : ℕ → ℚ)
    (nextValue : ℚ) : ℕ → ℕ → ℚ
  | 0, _ => 0
  | fuel + 1, t =>
      gaeDelta gamma H rewards dones values nextValue t
        + gamma * lam * nextnonterminal H dones t
          * gaeAdvAux gamma lam H rewards dones values nextValue fuel (t + 1)

/-- The entry `advantages[t]` produced by `compute_gae` for a horizon of
`H = num_steps` timesteps. -/
def gaeAdvantage (gamma lam : ℚ) (H : ℕ) (rewards dones values : ℕ → ℚ)
    (nextValue : ℚ) (t : ℕ) : ℚ :=
  gaeAdvAux gamma lam H rewards dones values nextValue (H - t) t

/-- The entry `returns[t]` produced by `compute_gae`
(`returns = advantages + values`, train.py line 169). -/
def gaeReturns (gamma lam : ℚ) (H : ℕ) (rewards dones values : ℕ → ℚ)
    (nextValue : ℚ) (t : ℕ) : ℚ :=
  gaeAdvantage gamma lam H rewards dones values nextValue t + values t

/-! ## Base browser environment step/reset flags
Embedding of `BaseBrowserEnv._step_async` / `reset` / `_check_terminated`
(base_browser_env.py lines 133-197).  Only the episode counter `_steps` and
`max_steps` decide the terminated/truncated flags; the browser interaction is
external. -/

/-- Default `BaseBrowserEnv._check_terminated` (line 195-197). -/
def check_terminated : Bool := false

/-- One call of `BaseBrowserEnv._step_async` viewed on the episode counter:
`_steps` is incremented first, then `terminated = self._check_terminated()`
and `truncated = self._steps >= self.max_steps` are computed.  Returns the new
counter and the `(terminated, truncated)` pair. -/
def stepCounters (maxSteps steps : ℕ) : ℕ × Bool × Bool :=
  (steps + 1, check_terminated, decide (steps + 1 ≥ maxSteps))

/-- The episode counter value written by `BaseBrowserEnv._reset_async`
(`self._steps = 0`, line 141). -/
def resetCounter : ℕ := 0

/-! ## Perceptual reward of the game environment
Embedding of `BrowserGameEnv._compute_reward` (game_env.py lines 101-118).
An observation is the flattened list of pixel channel values (uint8 cast to
float32, hence exact in `ℚ`); the stored `self._prev_obs` is an `Option`. -/

/-- One call of `BrowserGameEnv._compute_reward`: given the stored previous
observation and the current one, returns the reward together with the new
stored previous observation. -/
def compute_reward (prev : Option (List ℚ)) (obs : List ℚ) :
    ℚ × Option (List ℚ) :=
  match prev with
  | none => (0, some obs)
  | some p =>
      let diff := List.zipWith (fun a b => |a - b|) obs p
      let changeRatio := listMean diff / 255
      (changeRatio * 2 - 1 / 10, some obs)

/-! ## PPO update
Embedding of `PPOTrainer.update` (train.py lines 172-255).  The flattened
batch is produced from the `[num_steps, num_envs]` buffers by row-major
reshape.  The quantities recomputed under the current policy for a minibatch
(`new_log_prob`, `entropy`, `new_value`) change after every optimizer step, so
they are supplied per epoch and minibatch by an oracle; `torch.randperm` is
likewise supplied as an abstract permutation per epoch. -/

/-- Row-major flattening of a `[H, N]` buffer, as `tensor.reshape(-1)`
produces it (train.py lines 175-179). -/
def flattenHN (H N : ℕ) (buf : ℕ → ℕ → ℚ) : List ℚ :=
  (List.range (H * N)).map (fun k => buf (k / N) (k % N))

/-- Unbiased sample variance as used by `torch.std` (Bessel correction,
division by `n - 1`). -/
def listVar (l : List ℚ) : ℚ :=
  (l.map (fun x => (x - listMean l) ^ 2)).sum / ((l.length - 1 : ℕ) : ℚ)

/-- Advantage normalization of train.py line 182:
`(b_advantages - mean) / (std + 1e-8)` where mean and std are taken over the
whole flattened batch.  `qsqrt` interprets the square root inside the sample
standard deviation. -/
def normalizeAdvantages (qsqrt : ℚ → ℚ) (l : List ℚ) : List ℚ :=
  l.map (fun a => (a - listMean l) / (qsqrt (listVar l) + 1 / 100000000))

/-- Quantities recomputed by the forward pass on one minibatch under the
current policy parameters (train.py lines 209-213), indexed by flattened
batch position. -/
structure PolicyEval where
  newLogProb : ℕ → ℚ
  entropy : ℕ → ℚ
  newValue : ℕ → ℚ

/-- The scalar loss assembled for one minibatch by `PPOTrainer.update`
(train.py lines 216-238): `pg_loss - ent_coef * entropy_loss + vf_coef *
v_loss` with `pg_loss = mean(max(-A*ratio, -A*clamp(ratio, 1-eps, 1+eps)))`,
`v_loss = 0.5 * mean((new_value - return)^2)` and
`ratio = exp(new_log_prob - old_log_prob)` (`qexp` interprets `exp`).
`bAdv`, `bRet`, `bLogProbs` index the flattened batch; `mb` is the list of
shuffled indices of the minibatch. -/
def ppoMinibatchLoss (qexp : ℚ → ℚ) (clipCoef entCoef vfCoef : ℚ)
    (bAdv bRet bLogProbs : ℕ → ℚ) (pe : PolicyEval) (mb : List ℕ) : ℚ :=
  listMean (mb.map (fun i =>
      max (-(bAdv i) * qexp (pe.newLogProb i - bLogProbs i))
        (-(bAdv i) * clampQ (qexp (pe.newLogProb i - bLogProbs i))
            (1 - clipCoef) (1 + clipCoef))))
    - entCoef * listMean (mb.map (fun i => pe.entropy i))
    + vfCoef * (1 / 2 * listMean (mb.map (fun i => (pe.newValue i - bRet i) ^ 2)))

/-- The per-minibatch loss exactly as the specification words it: the mean of
`-min(ratio * A, clip(ratio, 1 - clip_coef, 1 + clip_coef) * A)` plus
`vf_coef * 0.5 * mean((new_value - return)^2)` minus
`ent_coef * mean(entropy)`, with `ratio = exp(new_log_prob -
stored_log_prob)`.  Stated separately from `ppoMinibatchLoss` so the code can
be proved to refine the spec. -/
def specMinibatchLoss (qexp : ℚ → ℚ) (clipCoef entCoef vfCoef : ℚ)
    (bAdv bRet bLogProbs : ℕ → ℚ) (pe : PolicyEval) (mb : List ℕ) : ℚ :=
  listMean (mb.map (fun i =>
      -(min (qexp (pe.newLogProb i - bLogProbs i) * bAdv i)
          (clampQ (qexp (pe.newLogProb i - bLogProbs i))
              (1 - clipCoef) (1 + clipCoef) * bAdv i))))
    + vfCoef * (1 / 2 * listMean (mb.map (fun i => (pe.newValue i - bRet i) ^ 2)))
    - entCoef * listMean (mb.map (fun i => pe.entropy i))

/-- Python `range(0, stop, step)` for a positive step. -/
def rangeStep (stop step : ℕ) : List ℕ :=
  (List.range (if step = 0 then 0 else (stop + step - 1) / step)).map
    (fun k => k * step)

/-- The sequence of minibatch losses computed (and stepped on) by one call of
`PPOTrainer.update`, in execution order over epochs and minibatches.
Advantages are normalized once, over the whole flattened batch, before the
epoch/minibatch loops begin (train.py line 182); each minibatch then gathers
from that normalized batch via its shuffled index slice
`indices[start : start + minibatch_size]`. -/
def ppoUpdateLosses (qexp qsqrt : ℚ → ℚ) (clipCoef entCoef vfCoef : ℚ)
    (numSteps numEnvs numMinibatches updateEpochs : ℕ)
    (advBuf retBuf logProbBuf : ℕ → ℕ → ℚ)
    (perm : ℕ → List ℕ) (peval : ℕ → ℕ → PolicyEval) : List ℚ :=
  let bAdvN := normalizeAdvantages qsqrt (flattenHN numSteps numEnvs advBuf)
  let bRetList := flattenHN numSteps numEnvs retBuf
  let bLpList := flattenHN numSteps numEnvs logProbBuf
  let batchSize := numEnvs * numSteps
  let minibatchSize := batchSize / numMinibatches
  (List.range updateEpochs).flatMap (fun e =>
    (rangeStep batchSize minibatchSize).map (fun start =>
      ppoMinibatchLoss qexp clipCoef entCoef vfCoef
        (fun i => bAdvN.getD i 0) (fun i => bRetList.getD i 0)
        (fun i => bLpList.getD i 0)
        (peval e start) (((perm e).drop start).take minibatchSize)))

/-- The clip-fraction diagnostic recorded for one minibatch (train.py lines
216-219): the mean of the 0/1 indicators `|ratio - 1| > clip_coef`. -/
def minibatchClipFrac (qexp : ℚ → ℚ) (clipCoef : ℚ) (bLogProbs : ℕ → ℚ)
    (pe : PolicyEval) (mb : List ℕ) : ℚ :=
  listMean (mb.map (fun i =>
    if |qexp (pe.newLogProb i - bLogProbs i) - 1| > clipCoef then (1 : ℚ) else 0))

/-! ## Progress reward
The module `denethor_rl/utils/progress_detector.py` is exercised by
`tests/test_rewards.py` but its implementation file is not in the source
tree; the definitions below are modelled from the specification (section 4.3
and its test fixtures). -/

/-- Modelled from the spec: the `ProgressInfo` snapshot of
`denethor_rl/utils/progress_detector.py` (missing from the source tree) —
optional numeric fields `score, level, health, lives, time_remaining`, all
defaulting to absent; the free-form `raw_indicators` diagnostics mapping is
omitted because no claim concerns it. -/
structure ProgressInfo where
  score : Option ℚ := none
  level : Option ℚ := none
  health : Option ℚ := none
  lives : Option ℚ := none
  timeRemaining : Option ℚ := none

/-- Modelled from the spec: the score term of `compute_progress_reward`.
Both sides present: a positive delta contributes `min(delta / 100, 0.5)`
(proportional, capped at +0.5); a score decrease contributes the fixture
value −0.1 (the spec's fixture `100 → 50 gives exactly −0.1` fixes the
negative branch as a flat −0.1 penalty; the prose `same /100 scale` would
give −0.5 there and contradicts the fixture).  A side missing skips the
term. -/
def scoreTerm (cur prev : Option ℚ) : ℚ :=
  match cur, prev with
  | some c, some p =>
      if c - p > 0 then min ((c - p) / 100) (1 / 2)
      else if c - p < 0 then -(1 / 10)
      else 0
  | _, _ => 0

/-- Modelled from the spec: the level term of `compute_progress_reward`
(`clamp(delta_level * 1.0, -inf, 1.0)`). -/
def levelTerm (cur prev : Option ℚ) : ℚ :=
  match cur, prev with
  | some c, some p => min (c - p) 1
  | _, _ => 0

/-- Modelled from the spec: the health term of `compute_progress_reward`
(`delta_health * 0.5`, signed). -/
def healthTerm (cur prev : Option ℚ) : ℚ :=
  match cur, prev with
  | some c, some p => (c - p) * (1 / 2)
  | _, _ => 0

/-- Modelled from the spec: the lives term of `compute_progress_reward`
(`delta_lives * 0.5`, signed). -/
def livesTerm (cur prev : Option ℚ) : ℚ :=
  match cur, prev with
  | some c, some p => (c - p) * (1 / 2)
  | _, _ => 0

/-- Modelled from the spec: `compute_progress_reward(current, previous)` of
`denethor_rl/utils/progress_detector.py` (missing from the source tree) —
0.0 with no previous snapshot, otherwise the sum of the per-field terms
clamped to `[-1, 1]`. -/
def compute_progress_reward (current : ProgressInfo)
    (previous : Option ProgressInfo) : ℚ :=
  match previous with
  | none => 0
  | some prev =>
      clampQ
        (scoreTerm current.score prev.score + levelTerm current.level prev.level
          + healthTerm current.health prev.health
          + livesTerm current.lives prev.lives)
        (-1) 1

/-! ## Rollout collection
Embedding of `PPOTrainer.collect_rollout` (train.py lines 98-140).  The policy
sampling and the vectorized environment are external, so their outputs for the
call made at inner step `step` are supplied by an oracle; `O` is the type of a
batched observation and `N` the number of parallel environments. -/

/-- External results consumed at inner step `step` of `collect_rollout`: the
sampled action, value estimate and log-probability per environment, and the
batched observation, rewards and terminated/truncated flags returned by
`vecenv.step`. -/
structure StepOracle (O : Type) (N : ℕ) where
  action : ℕ → Fin N → ℕ
  value : ℕ → Fin N → ℚ
  logProb : ℕ → Fin N → ℚ
  envObs : ℕ → O
  envRewards : ℕ → Fin N → ℚ
  envTerms : ℕ → Fin N → Bool
  envTruncs : ℕ → Fin N → Bool

/-- The rollout buffers and step counter of a `PPOTrainer`, as mutated by
`collect_rollout`; buffers are indexed by timestep then environment. -/
structure TrainerBuffers (O : Type) (N : ℕ) where
  globalStep : ℕ
  obsBuf : ℕ → O
  actionsBuf : ℕ → Fin N → ℕ
  rewardsBuf : ℕ → Fin N → ℚ
  donesBuf : ℕ → Fin N → ℚ
  valuesBuf : ℕ → Fin N → ℚ
  logProbsBuf : ℕ → Fin N → ℚ

/-- One iteration of the loop in `collect_rollout` at inner step `step`,
holding the current observation `obs`: increments `global_step` by
`num_envs`, stores the observation, the policy outputs, the rewards, and
`dones[step] = terms | truncs` (as 0/1 floats), and hands back the
observation returned by `vecenv.step`. -/
def collectStep {O : Type} {N : ℕ} (oracle : StepOracle O N)
    (st : TrainerBuffers O N) (obs : O) (step : ℕ) : TrainerBuffers O N × O :=
  ({ globalStep := st.globalStep + N
     obsBuf := fun s => if s = step then obs else st.obsBuf s
     actionsBuf := fun s => if s = step then oracle.action step else st.actionsBuf s
     rewardsBuf := fun s => if s = step then oracle.envRewards step else st.rewardsBuf s
     donesBuf := fun s =>
       if s = step then
         (fun i => if oracle.envTerms step i || oracle.envTruncs step i then 1 else 0)
       else st.donesBuf s
     valuesBuf := fun s => if s = step then oracle.value step else st.valuesBuf s
     logProbsBuf := fun s => if s = step then oracle.logProb step else st.logProbsBuf s },
   oracle.envObs step)

/-- `PPOTrainer.collect_rollout`: runs the loop body for the inner steps
`0, ..., numSteps - 1` and returns the mutated buffers together with the
final observation. -/
def collectRollout {O : Type} {N : ℕ} (numSteps : ℕ) (oracle : StepOracle O N)
    (st : TrainerBuffers O N) (obs : O) : TrainerBuffers O N × O :=
  (List.range numSteps).foldl (fun acc step => collectStep oracle acc.1 acc.2 step)
    (st, obs)

/-! ## Game action registry and action dispatch
Embedding of `denethor_rl/games/registry.py` and of
`BrowserGameEnv._execute_action_async` (game_env.py lines 77-99).  An action
map entry is the `(type, value)` pair of the registry; dispatching an action
produces the list of input events sent to the page (empty = no-op). -/

/-- The value of a `"click"` action map entry: either a normalized `(x, y)`
coordinate pair or a string anchor such as `"center"`. -/
inductive ClickValue where
  | coords (x y : ℚ)
  | anchor (s : String)
deriving DecidableEq

/-- One `(type, value)` entry of an action map. -/
inductive ActionEntry where
  | keyboard (key : String)
  | click (v : ClickValue)
  | wait (ms : ℕ)
deriving DecidableEq

/-- An input event dispatched to the browser page. -/
inductive PageEvent where
  | keyPress (key : String)
  | mouseClick (x y : ℤ)
  | waitTimeout (ms : ℕ)
deriving DecidableEq

/-- Python `int()` applied to a rational: truncation toward zero. -/
def pyInt (q : ℚ) : ℤ := q.num / (q.den : ℤ)

/-- `BrowserGameEnv._execute_action_async`: an unmapped action id dispatches
nothing; a `keyboard` entry presses its key; a `click` entry with normalized
coordinates clicks at `(int(x * viewport_width), int(y * viewport_height))`;
a `click` entry whose value is the anchor `"center"` clicks at
`(viewport_width // 2, viewport_height // 2)` (any other anchor dispatches
nothing); a `wait` entry idles for its millisecond duration. -/
def execute_action (vw vh : ℕ) (amap : List (ℕ × ActionEntry)) (a : ℕ) :
    List PageEvent :=
  match amap.lookup a with
  | none => []
  | some (.keyboard k) => [.keyPress k]
  | some (.click (.coords x y)) =>
      [.mouseClick (pyInt (x * vw)) (pyInt (y * vh))]
  | some (.click (.anchor s)) =>
      if s = "center" then [.mouseClick (vw / 2 : ℕ) (vh / 2 : ℕ)] else []
  | some (.wait ms) => [.waitTimeout ms]

/-- The `KEYBOARD_ARROWS` action map of registry.py (lines 44-52). -/
def KEYBOARD_ARROWS : List (ℕ × ActionEntry) :=
  [(0, .keyboard "ArrowUp"), (1, .keyboard "ArrowDown"),
   (2, .keyboard "ArrowLeft"), (3, .keyboard "ArrowRight"),
   (4, .keyboard "Space"), (5, .keyboard "Enter"), (6, .wait 100)]

/-- The `KEYBOARD_WASD` action map of registry.py (lines 54-62). -/
def KEYBOARD_WASD : List (ℕ × ActionEntry) :=
  [(0, .keyboard "w"), (1, .keyboard "s"), (2, .keyboard "a"),
   (3, .keyboard "d"), (4, .keyboard "Space"), (5, .keyboard "Enter"),
   (6, .wait 100)]

/-- The `KEYBOARD_FULL` action map of registry.py (lines 64-72): the arrow
entries re-enumerated at the same ids 0-6, extended with ids 7-12. -/
def KEYBOARD_FULL : List (ℕ × ActionEntry) :=
  KEYBOARD_ARROWS ++
    [(7, .keyboard "w"), (8, .keyboard "s"), (9, .keyboard "a"),
     (10, .keyboard "d"), (11, .keyboard "Escape"), (12, .wait 100)]

/-- `_mouse_grid(start_idx, grid_size)` of registry.py (lines 76-85): click
actions at the normalized centers of a `grid_size x grid_size` grid, with ids
`start_idx + i * grid_size + j`. -/
def mouseGrid (startIdx gridSize : ℕ) : List (ℕ × ActionEntry) :=
  (List.range gridSize).flatMap (fun i =>
    (List.range gridSize).map (fun j =>
      (startIdx + i * gridSize + j,
        ActionEntry.click (.coords (((j : ℚ) + 1 / 2) / (gridSize : ℚ))
          (((i : ℚ) + 1 / 2) / (gridSize : ℚ))))))

/-- `MOUSE_GRID_5X5` of registry.py (line 88). -/
def MOUSE_GRID_5X5 : List (ℕ × ActionEntry) := mouseGrid 0 5

/-- A `GameConfig` of registry.py (lines 32-40); the Discrete action space is
represented by its size `n`. -/
structure GameConfig where
  category : String
  actionSpaceSize : ℕ
  actionMap : List (ℕ × ActionEntry)
  description : String
  controlHints : List String
deriving DecidableEq

/-- The `GameCategory.PLATFORMER` entry of `GAME_CONFIGS` (registry.py). -/
def platformerConfig : GameConfig :=
  ⟨"platformer", 7, KEYBOARD_ARROWS,
   "Side-scrolling platformer (arrows + space to jump)",
   ["Arrow keys to move", "Space to jump"]⟩

/-- The `GameCategory.PUZZLE` entry of `GAME_CONFIGS` (registry.py). -/
def puzzleConfig : GameConfig :=
  ⟨"puzzle", 7,
   [(0, .keyboard "ArrowUp"), (1, .keyboard "ArrowDown"),
    (2, .keyboard "ArrowLeft"), (3, .keyboard "ArrowRight"),
    (4, .keyboard "z"), (5, .keyboard "x"), (6, .keyboard "Space")],
   "Puzzle game (arrows + z/x to rotate)",
   ["Arrow keys to move", "Z/X to rotate", "Space to drop"]⟩

/-- The `GameCategory.POINT_AND_CLICK` entry of `GAME_CONFIGS`
(registry.py). -/
def pointAndClickConfig : GameConfig :=
  ⟨"point_and_click", 25, MOUSE_GRID_5X5,
   "Point-and-click game (mouse only)", ["Click to interact"]⟩

/-- The `GameCategory.SHOOTER` entry of `GAME_CONFIGS` (registry.py). -/
def shooterConfig : GameConfig :=
  ⟨"shooter", 32,
   KEYBOARD_WASD ++ [(7, .keyboard "r")] ++
     (mouseGrid 0 5).map (fun p => (8 + p.1, p.2)),
   "Shooter (WASD + mouse)",
   ["WASD to move", "Mouse to aim/shoot", "R to reload"]⟩

/-- The `GameCategory.ARCADE` entry of `GAME_CONFIGS` (registry.py). -/
def arcadeConfig : GameConfig :=
  ⟨"arcade", 7, KEYBOARD_ARROWS,
   "Classic arcade (arrows + space)",
   ["Arrow keys to move", "Space to action"]⟩

/-- The `GameCategory.CARD` entry of `GAME_CONFIGS` (registry.py). -/
def cardConfig : GameConfig :=
  ⟨"card", 26, MOUSE_GRID_5X5 ++ [(25, .wait 500)],
   "Card game (mouse clicks)", ["Click to select/play cards"]⟩

/-- The `GameCategory.RACING` entry of `GAME_CONFIGS` (registry.py). -/
def racingConfig : GameConfig :=
  ⟨"racing", 5,
   [(0, .keyboard "ArrowUp"), (1, .keyboard "ArrowDown"),
    (2, .keyboard "ArrowLeft"), (3, .keyboard "ArrowRight"), (4, .wait 50)],
   "Racing game (arrows)",
   ["Up to accelerate", "Down to brake", "Left/Right to steer"]⟩

/-- The `GameCategory.RHYTHM` entry of `GAME_CONFIGS` (registry.py). -/
def rhythmConfig : GameConfig :=
  ⟨"rhythm", 6,
   [(0, .keyboard "d"), (1, .keyboard "f"), (2, .keyboard "j"),
    (3, .keyboard "k"), (4, .keyboard "Space"), (5, .wait 50)],
   "Rhythm game (4-lane DFJK)", ["D F J K for lanes", "Space for special"]⟩

/-- The `GameCategory.STRATEGY` entry of `GAME_CONFIGS` (registry.py). -/
def strategyConfig : GameConfig :=
  ⟨"strategy", 35,
   MOUSE_GRID_5X5 ++
     [(25, .keyboard "1"), (26, .keyboard "2"), (27, .keyboard "3"),
      (28, .keyboard "4"), (29, .keyboard "q"), (30, .keyboard "w"),
      (31, .keyboard "e"), (32, .keyboard "r"), (33, .keyboard "Space"),
      (34, .wait 200)],
   "Strategy/turn-based (mouse + hotkeys)",
   ["Click to select/move", "1-4 for units", "QWER for abilities"]⟩

/-- The `GameCategory.SPORTS` entry of `GAME_CONFIGS` (registry.py). -/
def sportsConfig : GameConfig :=
  ⟨"sports", 10,
   [(0, .keyboard "ArrowUp"), (1, .keyboard "ArrowDown"),
    (2, .keyboard "ArrowLeft"), (3, .keyboard "ArrowRight"),
    (4, .keyboard "Space"), (5, .keyboard "z"), (6, .keyboard "x"),
    (7, .keyboard "c"), (8, .keyboard "Enter"), (9, .wait 50)],
   "Sports game (arrows + action buttons)",
   ["Arrows to move", "Space to shoot", "Z to pass", "X for special"]⟩

/-- The built-in `GAME_CONFIGS` table of registry.py (lines 92-214), in
insertion order. -/
def GAME_CONFIGS : List GameConfig :=
  [platformerConfig, puzzleConfig, pointAndClickConfig, shooterConfig,
   arcadeConfig, cardConfig, racingConfig, rhythmConfig, strategyConfig,
   sportsConfig]

/-- The `UNIVERSAL_ACTION_MAP` of registry.py (lines 218-232). -/
def UNIVERSAL_ACTION_MAP : List (ℕ × ActionEntry) :=
  KEYBOARD_FULL ++ MOUSE_GRID_5X5.map (fun p => (13 + p.1, p.2)) ++
    [(38, .keyboard "Tab"), (39, .keyboard "Shift"), (40, .keyboard "Control"),
     (41, .keyboard "1"), (42, .keyboard "2"), (43, .keyboard "3"),
     (44, .keyboard "4"), (45, .wait 200)]

/-- The `UNIVERSAL_CONFIG` of registry.py (lines 234-240). -/
def UNIVERSAL_CONFIG : GameConfig :=
  ⟨"arcade", 46, UNIVERSAL_ACTION_MAP,
   "Universal action space (all actions, let RL figure it out)",
   ["All keyboard and mouse actions available"]⟩

/-- Every built-in configuration together with the universal one. -/
def allGameConfigs : List GameConfig := GAME_CONFIGS ++ [UNIVERSAL_CONFIG]

/-- Boolean check that an action map entry, when it is a coordinate click,
carries coordinates strictly inside `(0, 1) x (0, 1)`; every other entry kind
passes vacuously. -/
def clickCoordsInside : ActionEntry → Bool
  | .click (.coords x y) =>
      decide (0 < x) && decide (x < 1) && decide (0 < y) && decide (y < 1)
  | _ => true

/-! ## Reward function registry
The module `denethor_rl/rewards/base.py` is exercised by
`tests/test_rewards.py` but its implementation file is not in the source
tree; the definitions below are modelled from the specification (sections 3
and 4.5). -/

/-- Modelled from the spec: the reward variants held by the registry of
`denethor_rl/rewards/base.py` (missing from the source tree).  An instance
produced by a constructor is identified by its variant, which is what the
tests' `isinstance` checks observe. -/
inductive RewardVariant where
  | defaultReward
  | custom (id : ℕ)
deriving DecidableEq

/-- Modelled from the spec: the ValueError-class error raised for an unknown
reward-function name, carrying the offending name and the list of all
registered names. -/
inductive RewardRegistryError where
  | unknownRewardFunction (name : String) (available : List String)
deriving DecidableEq

/-- Modelled from the spec: the process-wide registry state seeded at module
load with the `"default"` entry mapped to the `DefaultReward` constructor. -/
def initialRewardRegistry : List (String × RewardVariant) :=
  [("default", .defaultReward)]

/-- Modelled from the spec: `register_reward(name, ctor)` inserts or
silently overwrites the entry for `name` (dict assignment semantics). -/
def register_reward (reg : List (String × RewardVariant)) (name : String)
    (ctor : RewardVariant) : List (String × RewardVariant) :=
  (name, ctor) :: reg.filter (fun e => e.1 ≠ name)

/-- Modelled from the spec: `list_reward_functions()` returns the registered
names. -/
def list_reward_functions (reg : List (String × RewardVariant)) : List String :=
  reg.map Prod.fst

/-- Modelled from the spec: `get_reward_function(name)` instantiates the
registered constructor, or fails with the documented error naming the unknown
reward function and enumerating all registered names. -/
def get_reward_function (reg : List (String × RewardVariant)) (name : String) :
    Except RewardRegistryError RewardVariant :=
  match reg.lookup name with
  | some ctor => .ok ctor
  | none => .error (.unknownRewardFunction name (list_reward_functions reg))

/-- A concrete step oracle over natural-number observations for one parallel
environment, used to exercise `collectRollout` on a closed input. -/
def demoOracle : StepOracle ℕ 1 :=
  ⟨fun _ _ => 0, fun _ _ => 0, fun _ _ => 0, fun s => s + 100,
   fun _ _ => 0, fun _ _ => true, fun _ _ => false⟩

/-- Freshly allocated trainer buffers for one parallel environment, used to
exercise `collectRollout` on a closed input. -/
def demoBuffers : TrainerBuffers ℕ 1 :=
  ⟨0, fun _ => 0, fun _ _ => 0, fun _ _ => 0, fun _ _ => 0, fun _ _ => 0,
   fun _ _ => 0⟩

/-! ## Theorems -/

/-- Helper: the summands of the clipped-surrogate policy loss as train.py
writes them (`max(-A * ratio, -A * clamp(ratio, lo, hi))`) agree with the
specification's `-min(ratio * A, clamp(ratio, lo, hi) * A)`. -/
theorem pg_term_eq (a r lo hi : ℚ) :
    max (-a * r) (-a * clampQ r lo hi) = -(min (r * a) (clampQ r lo hi * a)) := by
  rw [neg_mul, neg_mul, max_neg_neg, mul_comm a r, mul_comm a (clampQ r lo hi)]

/-- Helper: the minibatch loss assembled by the code equals the loss the
specification describes, on the same inputs. -/
theorem minibatchLoss_eq (qexp : ℚ → ℚ) (clipCoef entCoef vfCoef : ℚ)
    (bAdv bRet bLogProbs : ℕ → ℚ) (pe : PolicyEval) (mb : List ℕ) :
    ppoMinibatchLoss qexp clipCoef entCoef vfCoef bAdv bRet bLogProbs pe mb =
      specMinibatchLoss qexp clipCoef entCoef vfCoef bAdv bRet bLogProbs pe mb := by
  unfold ppoMinibatchLoss specMinibatchLoss
  simp only [pg_term_eq]
  ring

/-- C9: stepping the base browser environment never terminates an episode
(the default `_check_terminated` is constantly false); the step returns
`truncated = true` exactly when the per-episode counter, incremented once per
step, has reached `max_steps`; and `reset` sets the counter to 0. -/
theorem base_env_step_flags :
    ∀ maxSteps steps : ℕ,
      (stepCounters maxSteps steps).2.1 = false
      ∧ ((stepCounters maxSteps steps).2.2 = true ↔ maxSteps ≤ steps + 1)
      ∧ (stepCounters maxSteps steps).1 = steps + 1
      ∧ resetCounter = 0 := by
  intro maxSteps steps
  refine ⟨rfl, ?_, rfl, rfl⟩
  simp [stepCounters, ge_iff_le]

/-- C3: `compute_progress_reward` returns 0 without a previous snapshot,
otherwise the clamped-to-`[-1, 1]` sum of the per-field terms; and the
fixture scenarios score 0→50, score 100→50, level 1→3, health 1→0.5 and
lives 3→2 yield exactly 0.5, −0.1, 1.0, −0.25 and −0.5. -/
theorem progress_reward_spec :
    (∀ current : ProgressInfo, compute_progress_reward current none = 0)
    ∧ (∀ current prev : ProgressInfo,
        compute_progress_reward current (some prev) =
          clampQ (scoreTerm current.score prev.score
            + levelTerm current.level prev.level
            + healthTerm current.health prev.health
            + livesTerm current.lives prev.lives) (-1) 1)
    ∧ compute_progress_reward { score := some 50 } (some { score := some 0 }) = 1 / 2
    ∧ compute_progress_reward { score := some 50 } (some { score := some 100 }) = -(1 / 10)
    ∧ compute_progress_reward { level := some 3 } (some { level := some 1 }) = 1
    ∧ compute_progress_reward { health := some (1 / 2) } (some { health := some 1 }) = -(1 / 4)
    ∧ compute_progress_reward { lives := some 2 } (some { lives := some 3 }) = -(1 / 2) := by
  refine ⟨fun _ => rfl, fun _ _ => rfl, ?_, ?_, ?_, ?_, ?_⟩ <;>
    norm_num [compute_progress_reward, scoreTerm, levelTerm, healthTerm,
      livesTerm, clampQ, min_def, max_def]

/-- C4: for a minibatch in which every probability ratio lies within
`[1 - clip_coef, 1 + clip_coef]`, the recorded clip-fraction metric is
exactly 0. -/
theorem clip_frac_zero_when_unclipped
    (qexp : ℚ → ℚ) (clipCoef : ℚ) (bLogProbs : ℕ → ℚ) (pe : PolicyEval)
    (mb : List ℕ)
    (h : ∀ i ∈ mb, 1 - clipCoef ≤ qexp (pe.newLogProb i - bLogProbs i)
        ∧ qexp (pe.newLogProb i - bLogProbs i) ≤ 1 + clipCoef) :
    minibatchClipFrac qexp clipCoef bLogProbs pe mb = 0 := by
  unfold minibatchClipFrac
  have hmap : mb.map (fun i =>
      if |qexp (pe.newLogProb i - bLogProbs i) - 1| > clipCoef then (1 : ℚ) else 0)
      = mb.map (fun _ => (0 : ℚ)) := by
    apply List.map_congr_left
    intro i hi
    have hb := h i hi
    have habs : |qexp (pe.newLogProb i - bLogProbs i) - 1| ≤ clipCoef :=
      abs_le.mpr ⟨by linarith [hb.1], by linarith [hb.2]⟩
    simp [not_lt.mpr habs]
  rw [hmap]
  simp [listMean]

/-- Witness for C4 at a concrete minibatch. -/
theorem clip_frac_zero_when_unclipped_witness :
    minibatchClipFrac (fun _ => 1) 0 (fun _ => 0)
      ⟨fun _ => 0, fun _ => 0, fun _ => 0⟩ [0, 1] = 0 :=
  clip_frac_zero_when_unclipped (fun _ => 1) 0 (fun _ => 0)
    ⟨fun _ => 0, fun _ => 0, fun _ => 0⟩ [0, 1] (by simp)

/-- Helper: the elementwise absolute difference of a frame with itself sums
to zero. -/
theorem zip_abs_self_sum (l : List ℚ) :
    (List.zipWith (fun a b => |a - b|) l l).sum = 0 := by
  induction l with
  | nil => rfl
  | cons x xs ih => simp [ih]

/-- C6: the perceptual reward of `BrowserGameEnv` is 0 on the first call
(no stored previous frame), otherwise `mean(|current - previous|) / 255 * 2 -
0.1`; two identical consecutive frames give exactly −0.1; the reward grows
strictly with the mean absolute difference; and the stored previous
observation becomes the current one on every call. -/
theorem game_env_reward_spec :
    (∀ obs : List ℚ, compute_reward none obs = (0, some obs))
    ∧ (∀ p obs : List ℚ, compute_reward (some p) obs =
        (listMean (List.zipWith (fun a b => |a - b|) obs p) / 255 * 2 - 1 / 10,
          some obs))
    ∧ (∀ obs : List ℚ, (compute_reward (some obs) obs).1 = -(1 / 10))
    ∧ (∀ p1 o1 p2 o2 : List ℚ,
        listMean (List.zipWith (fun a b => |a - b|) o1 p1)
          < listMean (List.zipWith (fun a b => |a - b|) o2 p2) →
        (compute_reward (some p1) o1).1 < (compute_reward (some p2) o2).1) := by
  refine ⟨fun _ => rfl, fun _ _ => rfl, ?_, ?_⟩
  · intro obs
    show listMean (List.zipWith (fun a b => |a - b|) obs obs) / 255 * 2 - 1 / 10
        = -(1 / 10)
    rw [listMean, zip_abs_self_sum]
    norm_num
  · intro p1 o1 p2 o2 h
    show listMean (List.zipWith (fun a b => |a - b|) o1 p1) / 255 * 2 - 1 / 10
        < listMean (List.zipWith (fun a b => |a - b|) o2 p2) / 255 * 2 - 1 / 10
    linarith

/-- Witness for C6: a changed frame earns strictly more than an unchanged
one. -/
theorem game_env_reward_spec_witness :
    (compute_reward (some [(0 : ℚ)]) [0]).1
      < (compute_reward (some [(0 : ℚ)]) [1]).1 :=
  game_env_reward_spec.2.2.2 [0] [0] [0] [1] (by simp [listMean])

/-- C7: dispatching an action id that is absent from the action map sends no
input event to the page; a mapped id dispatches according to its entry:
`keyboard` presses the named key, `click` with normalized coordinates clicks
at `(int(x * viewport_width), int(y * viewport_height))`, `click` on the
`"center"` anchor clicks the viewport center, and `wait` idles for its
millisecond duration. -/
theorem execute_action_dispatch :
    (∀ (vw vh : ℕ) (amap : List (ℕ × ActionEntry)) (a : ℕ),
        amap.lookup a = none → execute_action vw vh amap a = [])
    ∧ (∀ vw vh amap a k, amap.lookup a = some (.keyboard k) →
        execute_action vw vh amap a = [.keyPress k])
    ∧ (∀ vw vh amap a x y, amap.lookup a = some (.click (.coords x y)) →
        execute_action vw vh amap a =
          [.mouseClick (pyInt (x * vw)) (pyInt (y * vh))])
    ∧ (∀ vw vh amap a, amap.lookup a = some (.click (.anchor "center")) →
        execute_action vw vh amap a = [.mouseClick (vw / 2 : ℕ) (vh / 2 : ℕ)])
    ∧ (∀ vw vh amap a ms, amap.lookup a = some (.wait ms) →
        execute_action vw vh amap a = [.waitTimeout ms]) := by
  refine ⟨?_, ?_, ?_, ?_, ?_⟩
  · intro vw vh amap a h
    simp [execute_action, h]
  · intro vw vh amap a k h
    simp [execute_action, h]
  · intro vw vh amap a x y h
    simp [execute_action, h]
  · intro vw vh amap a h
    simp [execute_action, h]
  · intro vw vh amap a ms h
    simp [execute_action, h]

/-- Witness for C7: the five dispatch shapes on concrete maps and a
1280x720 viewport, including the silent no-op on the unmapped id 99. -/
theorem execute_action_dispatch_witness :
    execute_action 1280 720 KEYBOARD_ARROWS 99 = []
    ∧ execute_action 1280 720 KEYBOARD_ARROWS 0 = [.keyPress "ArrowUp"]
    ∧ execute_action 1280 720 [(0, .click (.coords (1 / 10) (1 / 10)))] 0 =
        [.mouseClick (pyInt (1 / 10 * 1280)) (pyInt (1 / 10 * 720))]
    ∧ execute_action 1280 720 [(0, .click (.anchor "center"))] 0 =
        [.mouseClick (1280 / 2 : ℕ) (720 / 2 : ℕ)]
    ∧ execute_action 1280 720 KEYBOARD_ARROWS 6 = [.waitTimeout 100] :=
  ⟨execute_action_dispatch.1 1280 720 KEYBOARD_ARROWS 99 rfl,
   execute_action_dispatch.2.1 1280 720 KEYBOARD_ARROWS 0 "ArrowUp" rfl,
   execute_action_dispatch.2.2.1 1280 720 [(0, .click (.coords (1 / 10) (1 / 10)))]
     0 (1 / 10) (1 / 10) rfl,
   execute_action_dispatch.2.2.2.1 1280 720 [(0, .click (.anchor "center"))] 0 rfl,
   execute_action_dispatch.2.2.2.2 1280 720 KEYBOARD_ARROWS 6 100 rfl⟩

/-- Helper: looking up a key that no entry carries fails. -/
theorem lookup_eq_none_of_keys_ne {β : Type} (reg : List (String × β))
    (name : String) (h : ∀ e ∈ reg, e.1 ≠ name) : reg.lookup name = none := by
  induction reg with
  | nil => rfl
  | cons hd tl ih =>
      obtain ⟨k, v⟩ := hd
      have h1 : ¬ (name == k) = true := by
        simp only [beq_iff_eq]
        exact fun hx => h (k, v) (by simp) (by simp [hx])
      have h2 : ∀ e ∈ tl, e.1 ≠ name := fun e he => h e (by simp [he])
      simp [List.lookup, h1, ih h2]

/-- C8: retrieving an unregistered reward-function name fails with the
documented error naming it and enumerating every registered name; the
`"default"` entry is present in the registry as seeded at load, yielding a
`DefaultReward` instance; and after registering a constructor under a name,
retrieving that name yields an instance of that constructor. -/
theorem reward_registry_spec :
    (∀ (reg : List (String × RewardVariant)) (name : String),
        (∀ e ∈ reg, e.1 ≠ name) →
        get_reward_function reg name =
          .error (.unknownRewardFunction name (list_reward_functions reg)))
    ∧ get_reward_function initialRewardRegistry "default" = .ok .defaultReward
    ∧ (∀ (reg : List (String × RewardVariant)) (name : String)
        (ctor : RewardVariant),
        get_reward_function (register_reward reg name ctor) name = .ok ctor) := by
  refine ⟨?_, rfl, ?_⟩
  · intro reg name h
    rw [get_reward_function, lookup_eq_none_of_keys_ne reg name h]
  · intro reg name ctor
    rw [get_reward_function, register_reward]
    simp [List.lookup]

/-- Witness for C8: retrieving a name never registered in the freshly loaded
registry produces the documented error listing the known names. -/
theorem reward_registry_spec_witness :
    get_reward_function initialRewardRegistry "nonexistent" =
      .error (.unknownRewardFunction "nonexistent" ["default"]) :=
  reward_registry_spec.1 initialRewardRegistry "nonexistent" (by decide)

/-- Helper: every entry `_mouse_grid` generates is a click whose normalized
coordinates `(j + 0.5) / n`, `(i + 0.5) / n` with `i, j < n` lie strictly
inside the unit square. -/
theorem mouseGrid_click_inside (s n : ℕ) :
    ∀ p ∈ mouseGrid s n, clickCoordsInside p.2 = true := by
  intro p hp
  unfold mouseGrid at hp
  simp only [List.mem_flatMap, List.mem_map, List.mem_range] at hp
  obtain ⟨i, hi, j, hj, rfl⟩ := hp
  have hn : (0 : ℚ) < n := by
    exact_mod_cast Nat.lt_of_le_of_lt (Nat.zero_le i) hi
  have hj' : (j : ℚ) + 1 ≤ n := by exact_mod_cast hj
  have hi' : (i : ℚ) + 1 ≤ n := by exact_mod_cast hi
  have hx0 : (0 : ℚ) < ((j : ℚ) + 1 / 2) / n := div_pos (by positivity) hn
  have hx1 : ((j : ℚ) + 1 / 2) / n < 1 := (div_lt_one hn).mpr (by linarith)
  have hy0 : (0 : ℚ) < ((i : ℚ) + 1 / 2) / n := div_pos (by positivity) hn
  have hy1 : ((i : ℚ) + 1 / 2) / n < 1 := (div_lt_one hn).mpr (by linarith)
  simp only [clickCoordsInside, Bool.and_eq_true, decide_eq_true_eq]
  exact ⟨⟨⟨hx0, hx1⟩, hy0⟩, hy1⟩

/-- Helper: shifting the ids of a map (`{c + k: v for k, v in g.items()}`)
preserves the interior-click property of its entries. -/
theorem shifted_click_inside (c : ℕ) (g : List (ℕ × ActionEntry))
    (h : ∀ p ∈ g, clickCoordsInside p.2 = true) :
    ∀ p ∈ g.map (fun q => (c + q.1, q.2)), clickCoordsInside p.2 = true := by
  intro p hp
  simp only [List.mem_map] at hp
  obtain ⟨q, hq, rfl⟩ := hp
  exact h q hq

/-- C10: in every built-in game configuration and in the universal one, the
action map has an entry for every id below the Discrete action-space size
(a sampled action is never the silent no-op), and every coordinate click
entry carries normalized coordinates strictly inside `(0,1) x (0,1)`. -/
theorem game_configs_action_space_safe :
    ∀ cfg ∈ allGameConfigs,
      (∀ a, a < cfg.actionSpaceSize → (cfg.actionMap.lookup a).isSome = true)
      ∧ (∀ p ∈ cfg.actionMap, clickCoordsInside p.2 = true) := by
  intro cfg hcfg
  simp only [allGameConfigs, GAME_CONFIGS, List.mem_append, List.mem_cons,
    List.mem_singleton, List.not_mem_nil, or_false] at hcfg
  rcases hcfg with (h | h | h | h | h | h | h | h | h | h) | h <;> subst h
  · exact ⟨by decide, by decide⟩
  · exact ⟨by decide, by decide⟩
  · exact ⟨by decide, mouseGrid_click_inside 0 5⟩
  · refine ⟨by decide, ?_⟩
    show ∀ p ∈ KEYBOARD_WASD ++ [(7, ActionEntry.keyboard "r")] ++
      (mouseGrid 0 5).map (fun q => (8 + q.1, q.2)), clickCoordsInside p.2 = true
    rw [List.forall_mem_append, List.forall_mem_append]
    exact ⟨⟨by decide, by decide⟩,
      shifted_click_inside 8 (mouseGrid 0 5) (mouseGrid_click_inside 0 5)⟩
  · exact ⟨by decide, by decide⟩
  · refine ⟨by decide, ?_⟩
    show ∀ p ∈ MOUSE_GRID_5X5 ++ [(25, ActionEntry.wait 500)],
      clickCoordsInside p.2 = true
    rw [List.forall_mem_append]
    exact ⟨mouseGrid_click_inside 0 5, by decide⟩
  · exact ⟨by decide, by decide⟩
  · exact ⟨by decide, by decide⟩
  · refine ⟨by decide, ?_⟩
    show ∀ p ∈ MOUSE_GRID_5X5 ++
      [(25, ActionEntry.keyboard "1"), (26, ActionEntry.keyboard "2"),
       (27, ActionEntry.keyboard "3"), (28, ActionEntry.keyboard "4"),
       (29, ActionEntry.keyboard "q"), (30, ActionEntry.keyboard "w"),
       (31, ActionEntry.keyboard "e"), (32, ActionEntry.keyboard "r"),
       (33, ActionEntry.keyboard "Space"), (34, ActionEntry.wait 200)],
      clickCoordsInside p.2 = true
    rw [List.forall_mem_append]
    exact ⟨mouseGrid_click_inside 0 5, by decide⟩
  · exact ⟨by decide, by decide⟩
  · refine ⟨by decide, ?_⟩
    show ∀ p ∈ KEYBOARD_FULL ++ MOUSE_GRID_5X5.map (fun q => (13 + q.1, q.2)) ++
      [(38, ActionEntry.keyboard "Tab"), (39, ActionEntry.keyboard "Shift"),
       (40, ActionEntry.keyboard "Control"), (41, ActionEntry.keyboard "1"),
       (42, ActionEntry.keyboard "2"), (43, ActionEntry.keyboard "3"),
       (44, ActionEntry.keyboard "4"), (45, ActionEntry.wait 200)],
      clickCoordsInside p.2 = true
    rw [List.forall_mem_append, List.forall_mem_append]
    exact ⟨⟨by decide,
      shifted_click_inside 13 MOUSE_GRID_5X5 (mouseGrid_click_inside 0 5)⟩,
      by decide⟩

/-- Witness for C10: the point-and-click map serves every id of its Discrete
space, and the arcade map's first entry is click-safe. -/
theorem game_configs_action_space_safe_witness :
    (pointAndClickConfig.actionMap.lookup 24).isSome = true
    ∧ clickCoordsInside (ActionEntry.keyboard "ArrowUp") = true :=
  ⟨(game_configs_action_space_safe pointAndClickConfig
      (by simp [allGameConfigs, GAME_CONFIGS])).1 24 (by decide),
   (game_configs_action_space_safe arcadeConfig
      (by simp [allGameConfigs, GAME_CONFIGS])).2 (0, .keyboard "ArrowUp")
      (by decide)⟩

/-- C1: `compute_gae` satisfies the backward GAE recursion — at every
timestep `t < H` the advantage is the TD residual
`rewards[t] + gamma * nextvalue * nextnonterminal - values[t]` plus
`gamma * lambda * nextnonterminal` times the advantage at `t + 1` (zero past
the horizon), where the final step uses the bootstrap value and its own
recorded done flag and earlier steps use the recorded value/done at `t + 1`;
the returned `returns` are `advantages + values`; and for a one-step horizon
with the done flag false the advantage is exactly
`reward + gamma * bootstrap_value - value`. -/
theorem compute_gae_spec :
    (∀ (gamma lam : ℚ) (H : ℕ) (rewards dones values : ℕ → ℚ)
        (nextValue : ℚ) (t : ℕ), t < H →
        gaeAdvantage gamma lam H rewards dones values nextValue t =
          (rewards t
            + gamma * (if t = H - 1 then nextValue else values (t + 1))
              * (1 - (if t = H - 1 then dones t else dones (t + 1)))
            - values t)
          + gamma * lam * (1 - (if t = H - 1 then dones t else dones (t + 1)))
            * (if t + 1 < H then
                gaeAdvantage gamma lam H rewards dones values nextValue (t + 1)
              else 0)
        ∧ gaeReturns gamma lam H rewards dones values nextValue t =
            gaeAdvantage gamma lam H rewards dones values nextValue t + values t)
    ∧ (∀ (gamma lam : ℚ) (rewards dones values : ℕ → ℚ) (nextValue : ℚ),
        dones 0 = 0 →
        gaeAdvantage gamma lam 1 rewards dones values nextValue 0 =
          rewards 0 + gamma * nextValue - values 0) := by
  constructor
  · intro gamma lam H rewards dones values nextValue t ht
    refine ⟨?_, rfl⟩
    by_cases h1 : t + 1 < H
    · have hne : ¬ t = H - 1 := by omega
      obtain ⟨k, hk⟩ : ∃ k, H - t = k + 1 := ⟨H - t - 1, by omega⟩
      have hk2 : H - (t + 1) = k := by omega
      unfold gaeAdvantage
      rw [hk, hk2]
      simp [gaeAdvAux, gaeDelta, nextnonterminal, nextvalues, hne, h1]
    · have heq : t = H - 1 := by omega
      subst heq
      have hk : H - (H - 1) = 1 := by omega
      unfold gaeAdvantage
      rw [hk]
      simp [gaeAdvAux, gaeDelta, nextnonterminal, nextvalues, h1]
  · intro gamma lam rewards dones values nextValue h0
    show gaeAdvAux gamma lam 1 rewards dones values nextValue (1 - 0) 0 = _
    norm_num [gaeAdvAux, gaeDelta, nextnonterminal, nextvalues, h0]

/-- Witness for C1: the recurrence at the first step of a two-step horizon,
and the closed one-step form. -/
theorem compute_gae_spec_witness :
    (gaeAdvantage 1 1 2 (fun _ => 1) (fun _ => 0) (fun _ => 0) 0 0 =
      ((fun _ : ℕ => (1 : ℚ)) 0
        + 1 * (if (0 : ℕ) = 2 - 1 then (0 : ℚ) else (fun _ : ℕ => (0 : ℚ)) (0 + 1))
          * (1 - (if (0 : ℕ) = 2 - 1 then (fun _ : ℕ => (0 : ℚ)) 0
              else (fun _ : ℕ => (0 : ℚ)) (0 + 1)))
        - (fun _ : ℕ => (0 : ℚ)) 0)
        + 1 * 1 * (1 - (if (0 : ℕ) = 2 - 1 then (fun _ : ℕ => (0 : ℚ)) 0
            else (fun _ : ℕ => (0 : ℚ)) (0 + 1)))
          * (if 0 + 1 < 2 then
              gaeAdvantage 1 1 2 (fun _ => 1) (fun _ => 0) (fun _ => 0) 0 (0 + 1)
            else 0))
    ∧ gaeAdvantage (1 / 2) 1 1 (fun _ => 10) (fun _ => 0) (fun _ => 4) 6 0 =
        10 + 1 / 2 * 6 - 4 :=
  ⟨(compute_gae_spec.1 1 1 2 (fun _ => 1) (fun _ => 0) (fun _ => 0) 0 0
      (by decide)).1,
   compute_gae_spec.2 (1 / 2) 1 (fun _ => 10) (fun _ => 0) (fun _ => 4) 6 rfl⟩

/-- Helper: unfolding one trailing iteration of `collectRollout`. -/
theorem collectRollout_succ {O : Type} {N : ℕ} (oracle : StepOracle O N)
    (st : TrainerBuffers O N) (obs : O) (n : ℕ) :
    collectRollout (n + 1) oracle st obs =
      collectStep oracle (collectRollout n oracle st obs).1
        (collectRollout n oracle st obs).2 n := by
  unfold collectRollout
  rw [List.range_succ, List.foldl_append]
  rfl

/-- C5: one call of `collect_rollout` over `H` inner steps records
`dones[step]` as the elementwise OR of the terminated and truncated flags of
that step's environment call, raises `global_step` by `num_envs` per inner
step (hence by `H * N` in total), and returns the batched observation
produced by the final environment step. -/
theorem collect_rollout_spec {O : Type} {N : ℕ} (oracle : StepOracle O N)
    (st : TrainerBuffers O N) (obs : O) (H : ℕ) :
    (collectRollout H oracle st obs).1.globalStep = st.globalStep + H * N
    ∧ (∀ step, step < H → ∀ i,
        (collectRollout H oracle st obs).1.donesBuf step i =
          if oracle.envTerms step i || oracle.envTruncs step i then 1 else 0)
    ∧ (0 < H → (collectRollout H oracle st obs).2 = oracle.envObs (H - 1)) := by
  induction H with
  | zero =>
      refine ⟨by simp [collectRollout], ?_, ?_⟩
      · intro step hstep
        omega
      · intro h
        omega
  | succ n ih =>
      rw [collectRollout_succ]
      refine ⟨?_, ?_, ?_⟩
      · show (collectRollout n oracle st obs).1.globalStep + N =
          st.globalStep + (n + 1) * N
        rw [ih.1, Nat.succ_mul, Nat.add_assoc]
      · intro step hstep i
        show (if step = n then
            (fun i => if oracle.envTerms n i || oracle.envTruncs n i
              then (1 : ℚ) else 0)
          else (collectRollout n oracle st obs).1.donesBuf step) i = _
        by_cases hsn : step = n
        · subst hsn
          simp
        · rw [if_neg hsn]
          exact ih.2.1 step (by omega) i
      · intro _
        show oracle.envObs n = oracle.envObs (n + 1 - 1)
        rw [Nat.add_sub_cancel]

/-- Witness for C5: two steps of one environment driven by `demoOracle`
starting from fresh buffers. -/
theorem collect_rollout_spec_witness :
    (collectRollout 2 demoOracle demoBuffers 7).1.globalStep =
      demoBuffers.globalStep + 2 * 1
    ∧ (collectRollout 2 demoOracle demoBuffers 7).1.donesBuf 0 0 =
        (if demoOracle.envTerms 0 0 || demoOracle.envTruncs 0 0 then 1 else 0)
    ∧ (collectRollout 2 demoOracle demoBuffers 7).2 = demoOracle.envObs (2 - 1) :=
  ⟨(collect_rollout_spec demoOracle demoBuffers 7 2).1,
   (collect_rollout_spec demoOracle demoBuffers 7 2).2.1 0 (by decide) 0,
   (collect_rollout_spec demoOracle demoBuffers 7 2).2.2 (by decide)⟩

/-- C2: one call of `PPOTrainer.update` normalizes the advantages exactly
once, over the entire flattened `H * N` batch, before any minibatching, and
the loss it minimizes on every minibatch of every epoch is exactly the
specified `mean(-min(ratio * A, clip(ratio, 1 - clip_coef, 1 + clip_coef)
* A)) + vf_coef * 0.5 * mean((new_value - return)^2) - ent_coef *
mean(entropy)` with `ratio = exp(new_log_prob - stored_log_prob)` and `A`
gathered from the once-normalized full batch. -/
theorem ppo_update_spec (qexp qsqrt : ℚ → ℚ) (clipCoef entCoef vfCoef : ℚ)
    (numSteps numEnvs numMinibatches updateEpochs : ℕ)
    (advBuf retBuf logProbBuf : ℕ → ℕ → ℚ)
    (perm : ℕ → List ℕ) (peval : ℕ → ℕ → PolicyEval) :
    ppoUpdateLosses qexp qsqrt clipCoef entCoef vfCoef numSteps numEnvs
        numMinibatches updateEpochs advBuf retBuf logProbBuf perm peval =
      (List.range updateEpochs).flatMap (fun e =>
        (rangeStep (numEnvs * numSteps) (numEnvs * numSteps / numMinibatches)).map
          (fun start =>
            specMinibatchLoss qexp clipCoef entCoef vfCoef
              (fun i => (normalizeAdvantages qsqrt
                  (flattenHN numSteps numEnvs advBuf)).getD i 0)
              (fun i => (flattenHN numSteps numEnvs retBuf).getD i 0)
              (fun i => (flattenHN numSteps numEnvs logProbBuf).getD i 0)
              (peval e start)
              (((perm e).drop start).take (numEnvs * numSteps / numMinibatches)))) := by
  unfold ppoUpdateLosses
  simp only [minibatchLoss_eq]
